import Mathlib

/-!
Shallow embedding of `scripts/admin-user-audit.py` (packzen repository): a
reconciliation script that cross-references identity-provider (Clerk) users
with rows of a D1 application database and prints a fixed-width report.

Python strings are modelled as Lean `String`s (or their character lists where
character-level processing matters), Python ints as `Int`, JSON values as an
inductive `Json` type, and the console output as the list of printed lines.
-/

namespace AdminUserAudit

/-- A normalized identity-provider user as built by `fetch_clerk_users`:
`{"id": u["id"], "email": email, "created_at": formatted timestamp}`. -/
structure ClerkUser where
  id : String
  email : String
  created_at : String
deriving DecidableEq

/-- One row of the aggregate query issued by `fetch_db_users`: a distinct
`clerk_user_id` with its four per-table counts. -/
structure DbUserRow where
  clerk_user_id : String
  trip_count : Int
  master_item_count : Int
  category_count : Int
  bag_template_count : Int
deriving DecidableEq

/-- One printed row of the reconciliation table (the variables of the
report loop body in `main`). -/
structure ReportRow where
  id : String
  email : String
  trips : Int
  items : Int
  cats : Int
  tmpls : Int
  status : String
deriving DecidableEq

/-- Code-point lexicographic comparison of character lists: the order Python's
`sorted` uses on `str` values. -/
def charListLe : List Char → List Char → Bool
  | [], _ => true
  | _ :: _, [] => false
  | a :: as, b :: bs => if a = b then charListLe as bs else decide (a < b)

/-- `a <= b` for Python strings (code-point lexicographic). -/
def strLe (a b : String) : Bool := charListLe a.data b.data

/-- Lookup in `clerk_by_id = {u["id"]: u for u in clerk_users}`: a Python dict
comprehension keeps the last value written for a duplicated key, so the lookup
returns the last matching user. -/
def clerk_by_id_get (clerk_users : List ClerkUser) (uid : String) : Option ClerkUser :=
  clerk_users.reverse.find? (fun u => u.id == uid)

/-- `next((r for r in db_users if r["clerk_user_id"] == uid), None)`: the first
matching row, `none` when absent. -/
def db_find (db_users : List DbUserRow) (uid : String) : Option DbUserRow :=
  db_users.find? (fun r => r.clerk_user_id == uid)

/-- `all_ids = sorted(set(clerk_by_id.keys()) | db_ids)`: the distinct ids of
both sources in ascending lexicographic order.  `sorted` over a set yields the
unique ascending enumeration of its elements, obtained here by sorting the
deduplicated concatenation of the two id lists. -/
def all_ids (clerk_users : List ClerkUser) (db_users : List DbUserRow) : List String :=
  List.insertionSort (fun a b => strLe a b = true)
    (clerk_users.map ClerkUser.id ++ db_users.map DbUserRow.clerk_user_id).dedup

/-- The body of the report loop in `main` for one id of `all_ids`: independent
lookups on both sides, display fields defaulting to `""`/`0` for the absent
side, and the status classification (`if clerk and db_row` on the two lookup
results; both dicts are non-empty whenever present, so Python truthiness
coincides with presence). -/
def make_row (clerk_users : List ClerkUser) (db_users : List DbUserRow)
    (uid : String) : ReportRow :=
  let clerk := clerk_by_id_get clerk_users uid
  let db_row := db_find db_users uid
  { id := uid
    email := match clerk with | some c => c.email | none => ""
    trips := match db_row with | some r => r.trip_count | none => 0
    items := match db_row with | some r => r.master_item_count | none => 0
    cats := match db_row with | some r => r.category_count | none => 0
    tmpls := match db_row with | some r => r.bag_template_count | none => 0
    status :=
      match clerk, db_row with
      | some _, some _ => "ok"
      | some _, none => "NO DB DATA"
      | none, _ => "** ORPHANED DB DATA **" }

/-- The rows of the reconciliation table, one per id of `all_ids` in order. -/
def report_rows (clerk_users : List ClerkUser) (db_users : List DbUserRow) :
    List ReportRow :=
  (all_ids clerk_users db_users).map (make_row clerk_users db_users)

/-- The ids appended to `orphaned_db` during the report loop: those whose
clerk lookup failed (the loop's final `else` branch), in `all_ids` order. -/
def orphaned_db (clerk_users : List ClerkUser) (db_users : List DbUserRow) :
    List String :=
  (all_ids clerk_users db_users).filter
    (fun uid => (clerk_by_id_get clerk_users uid).isNone)

/-- The ids appended to `unused_clerk` during the report loop: clerk present,
database row absent, in `all_ids` order. -/
def unused_clerk (clerk_users : List ClerkUser) (db_users : List DbUserRow) :
    List String :=
  (all_ids clerk_users db_users).filter
    (fun uid => (clerk_by_id_get clerk_users uid).isSome &&
      (db_find db_users uid).isNone)

/-- `f"{s:<w}"`: left-justify `s` in `w` columns (never truncates). -/
def padRight (s : String) (w : Nat) : String :=
  s ++ String.mk (List.replicate (w - s.length) ' ')

/-- `f"{s:>w}"`: right-justify `s` in `w` columns (never truncates). -/
def padLeft (s : String) (w : Nat) : String :=
  String.mk (List.replicate (w - s.length) ' ') ++ s

/-- The fixed-width table line printed for one report row. -/
def row_line (r : ReportRow) : String :=
  padRight r.id 36 ++ " " ++ padRight r.email 35 ++ " " ++
  padLeft (toString r.trips) 5 ++ " " ++ padLeft (toString r.items) 5 ++ " " ++
  padLeft (toString r.cats) 4 ++ " " ++ padLeft (toString r.tmpls) 4 ++ "  " ++
  r.status

/-- The column-header line of the table. -/
def header_line : String :=
  padRight "USER_ID" 36 ++ " " ++ padRight "EMAIL" 35 ++ " " ++
  padLeft "TRIPS" 5 ++ " " ++ padLeft "ITEMS" 5 ++ " " ++
  padLeft "CATS" 4 ++ " " ++ padLeft "TMPL" 4 ++ "  STATUS"

/-- The dashed separator line under the header. -/
def rule_line : String :=
  String.mk (List.replicate 36 '-') ++ " " ++ String.mk (List.replicate 35 '-') ++ " " ++
  String.mk (List.replicate 5 '-') ++ " " ++ String.mk (List.replicate 5 '-') ++ " " ++
  String.mk (List.replicate 4 '-') ++ " " ++ String.mk (List.replicate 4 '-') ++ "  " ++
  String.mk (List.replicate 20 '-')

/-- The line printed for one orphaned id in the summary:
`f"  {uid}  ({row['trip_count']} trips, {row['master_item_count']} items)"`.
The source's `next(...)` without a default presupposes a matching row, which
holds for every id of `orphaned_db` (proved below); the `none` arm is
unreachable. -/
def orphan_detail_line (db_users : List DbUserRow) (uid : String) : String :=
  match db_find db_users uid with
  | some row =>
    "  " ++ uid ++ "  (" ++ toString row.trip_count ++ " trips, " ++
    toString row.master_item_count ++ " items)"
  | none => ""

/-- The line printed for one unused clerk id: `f"  {uid}  ({clerk_by_id[uid]['email']})"`.
The direct dict access presupposes the key, which holds for every id of
`unused_clerk`; the `none` arm is unreachable. -/
def unused_detail_line (clerk_users : List ClerkUser) (uid : String) : String :=
  match clerk_by_id_get clerk_users uid with
  | some u => "  " ++ uid ++ "  (" ++ u.email ++ ")"
  | none => ""

/-- The two count lines of the summary, preceded by the blank line of the bare
`print()`. -/
def summary_base (clerk_users : List ClerkUser) (db_users : List DbUserRow) :
    List String :=
  ["", "Clerk users:  " ++ toString clerk_users.length,
   "DB users:     " ++ toString db_users.length]

/-- The orphaned-data block of the summary: listing when `orphaned_db` is
non-empty, an explicit none-found line otherwise.  A `print` of a string with
a leading newline produces an empty line followed by the text. -/
def orphan_section (clerk_users : List ClerkUser) (db_users : List DbUserRow) :
    List String :=
  let orphaned := orphaned_db clerk_users db_users
  if orphaned.isEmpty then
    ["", "No orphaned DB data found -- all DB users have Clerk accounts."]
  else
    ["", "Orphaned DB users (no Clerk account): " ++ toString orphaned.length] ++
    orphaned.map (orphan_detail_line db_users)

/-- The unused-accounts block of the summary: listing when `unused_clerk` is
non-empty, nothing at all otherwise (the source has no `else` here). -/
def unused_section (clerk_users : List ClerkUser) (db_users : List DbUserRow) :
    List String :=
  let unused := unused_clerk clerk_users db_users
  if unused.isEmpty then []
  else
    ["", "Clerk users with no DB data: " ++ toString unused.length] ++
    unused.map (unused_detail_line clerk_users)

/-- All lines printed after the table. -/
def summary_lines (clerk_users : List ClerkUser) (db_users : List DbUserRow) :
    List String :=
  summary_base clerk_users db_users ++ orphan_section clerk_users db_users ++
  unused_section clerk_users db_users

/-- Every line `main` prints from the blank line before the table header to the
end of the run, as a function of the two fetched snapshots. -/
def report_output (clerk_users : List ClerkUser) (db_users : List DbUserRow) :
    List String :=
  ["", header_line, rule_line] ++
  (report_rows clerk_users db_users).map row_line ++
  summary_lines clerk_users db_users

/-- The pagination loop of `fetch_clerk_users`.  `pages` lists the successive
batches the API returns (one per request, in request order); per-item
normalization is irrelevant to pagination and items are kept opaque.  The loop
breaks after a request when its batch is empty, appends the batch otherwise,
and breaks when the batch is shorter than `page_size`.  Result: collected
items and the number of requests issued.  The source loop issues a further
request after every full page, so `pages` is assumed long enough to contain
the terminating short or empty batch; an exhausted `pages` ends the model
without a further request. -/
def fetch_pages (page_size : Nat) : List (List α) → List α × Nat
  | [] => ([], 0)
  | batch :: rest =>
    if batch.isEmpty then ([], 1)
    else if batch.length < page_size then (batch, 1)
    else
      let r := fetch_pages page_size rest
      (batch ++ r.1, r.2 + 1)

/-- JSON values, as produced by `json.loads`. -/
inductive Json where
  | null
  | bool (b : Bool)
  | num (n : Int)
  | str (s : String)
  | arr (elems : List Json)
  | obj (fields : List (String × Json))

/-- Python `dict.get(key, default)` on a JSON object.  `json.loads` keeps the
last value for a duplicated key, so the lookup scans from the end. -/
def objGet (fields : List (String × Json)) (key : String) (default : Json) : Json :=
  match fields.reverse.find? (fun p => p.1 == key) with
  | some p => p.2
  | none => default

/-- The result-shape handling of `query_d1` after `json.loads`:
`if isinstance(data, list) and data: return data[0].get("results", [])` else
`return []`.  Calling `.get` on a non-dict first element raises an uncaught
`AttributeError`, modelled as `Except.error`. -/
def parse_d1_output (data : Json) : Except String Json :=
  match data with
  | .arr (first :: _) =>
    match first with
    | .obj fields => .ok (objGet fields "results" (.arr []))
    | _ => .error "AttributeError"
  | _ => .ok (.arr [])

/-- Python `str.strip()` on the right end only (helper). -/
def trimRight (cs : List Char) : List Char :=
  (cs.reverse.dropWhile Char.isWhitespace).reverse

/-- Python `str.strip()`: remove leading and trailing whitespace. -/
def pyStrip (cs : List Char) : List Char :=
  trimRight (cs.dropWhile Char.isWhitespace)

/-- Is `c` a single or double quote (the characters of the Python literal
passed to `strip` in `load_env`)? -/
def isQuoteChar (c : Char) : Bool := c = Char.ofNat 39 || c = Char.ofNat 34

/-- `value.strip("'\x22")`: remove ALL leading and trailing quote characters,
single or double in any combination. -/
def stripQuotes (cs : List Char) : List Char :=
  ((cs.dropWhile isQuoteChar).reverse.dropWhile isQuoteChar).reverse

/-- `line.partition("=")`, keeping the first and last components: the text
before the first `=` and the text after it.  When no `=` occurs the whole
string is the first component and the second is empty. -/
def partitionEq : List Char → List Char × List Char
  | [] => ([], [])
  | c :: cs =>
    if c = '=' then ([], cs)
    else
      let r := partitionEq cs
      (c :: r.1, r.2)

/-- One iteration of the `load_env` line loop, on the line's characters:
strip the line, skip it when empty or starting with `#`, otherwise split on
the first `=`, strip the key, strip whitespace then quote characters from the
value, and return the key/value pair to store. -/
def process_line (line : List Char) : Option (List Char × List Char) :=
  let l := pyStrip line
  if l = [] then none
  else if l.head? = some '#' then none
  else
    let kv := partitionEq l
    some (pyStrip kv.1, stripQuotes (pyStrip kv.2))

/-- Modelled from the spec: the spec's reading of the value cleanup — remove
only an optional MATCHING pair of surrounding quote characters; a value whose
quotes do not form a matching surrounding pair, or has no quotes, is kept
as-is.  Stated for comparison against `stripQuotes`, which is what the code
does. -/
def stripMatchingQuotePair (cs : List Char) : List Char :=
  match cs, cs.getLast? with
  | a :: b :: rest, some d =>
    if isQuoteChar a ∧ a = d then (b :: rest).dropLast else a :: b :: rest
  | _, _ => cs

/-- Modelled from the spec: `process_line` with the spec's matching-pair quote
removal in place of the code's strip-all behavior. -/
def process_line_spec (line : List Char) : Option (List Char × List Char) :=
  let l := pyStrip line
  if l = [] then none
  else if l.head? = some '#' then none
  else
    let kv := partitionEq l
    some (pyStrip kv.1, stripMatchingQuotePair (pyStrip kv.2))

/-- The `load_env` loop over the file's lines: each processed line sets its
key in the process environment, later writes overwriting earlier ones.  The
environment is modelled as a partial map from keys to values. -/
def load_env_lines (lines : List (List Char)) (env : List Char → Option (List Char)) :
    List Char → Option (List Char) :=
  lines.foldl
    (fun e line =>
      match process_line line with
      | some kv => fun k => if k = kv.1 then some kv.2 else e k
      | none => e)
    env

/-! ### The lexicographic comparison agrees with the library order on strings -/

theorem charListLe_iff (as : List Char) : ∀ bs : List Char,
    (charListLe as bs = true ↔ as = bs ∨ List.Lex (· < ·) as bs) := by
  induction as with
  | nil =>
    intro bs
    cases bs with
    | nil => simp [charListLe]
    | cons b bs => simp [charListLe, List.Lex.nil]
  | cons a as ih =>
    intro bs
    cases bs with
    | nil =>
      constructor
      · intro h
        exact absurd h (by simp [charListLe])
      · rintro (h | h)
        · exact absurd h (by simp)
        · cases h
    | cons b bs =>
      by_cases hab : a = b
      · subst hab
        have hstep : charListLe (a :: as) (a :: bs) = charListLe as bs := by
          simp [charListLe]
        rw [hstep, ih bs]
        constructor
        · rintro (h | h)
          · exact Or.inl (by rw [h])
          · exact Or.inr (List.Lex.cons h)
        · rintro (h | h)
          · cases h
            exact Or.inl rfl
          · cases h with
            | cons h => exact Or.inr h
            | rel h => exact absurd h (lt_irrefl a)
      · have hstep : charListLe (a :: as) (b :: bs) = decide (a < b) := by
          simp [charListLe, hab]
        rw [hstep]
        simp only [decide_eq_true_eq]
        constructor
        · intro h
          exact Or.inr (List.Lex.rel h)
        · rintro (h | h)
          · cases h
            exact absurd rfl hab
          · cases h with
            | cons h => exact absurd rfl hab
            | rel h => exact h

theorem list_char_le_iff (as bs : List Char) :
    as ≤ bs ↔ as = bs ∨ List.Lex (· < ·) as bs := by
  rw [le_iff_lt_or_eq]
  constructor
  · rintro (h | h)
    · exact Or.inr h
    · exact Or.inl h
  · rintro (h | h)
    · exact Or.inr h
    · exact Or.inl h

/-- `strLe` is the `≤` of the string linear order. -/
theorem strLe_iff (a b : String) : strLe a b = true ↔ a ≤ b := by
  rw [String.le_iff_toList_le]
  show charListLe a.data b.data = true ↔ a.data ≤ b.data
  rw [charListLe_iff, list_char_le_iff]

/-! ### Facts about `all_ids` -/

theorem all_ids_perm (I : List ClerkUser) (D : List DbUserRow) :
    (all_ids I D).Perm (I.map ClerkUser.id ++ D.map DbUserRow.clerk_user_id).dedup :=
  List.perm_insertionSort _ _

theorem all_ids_nodup (I : List ClerkUser) (D : List DbUserRow) :
    (all_ids I D).Nodup :=
  (List.nodup_dedup _).perm (all_ids_perm I D).symm

theorem mem_all_ids {I : List ClerkUser} {D : List DbUserRow} {uid : String} :
    uid ∈ all_ids I D ↔
      uid ∈ I.map ClerkUser.id ∨ uid ∈ D.map DbUserRow.clerk_user_id := by
  rw [(all_ids_perm I D).mem_iff, List.mem_dedup, List.mem_append]

theorem all_ids_sorted (I : List ClerkUser) (D : List DbUserRow) :
    List.Sorted (· ≤ ·) (all_ids I D) := by
  haveI ht : IsTotal String (fun a b => strLe a b = true) :=
    ⟨fun a b => by
      rcases le_total a b with h | h
      · exact Or.inl ((strLe_iff a b).mpr h)
      · exact Or.inr ((strLe_iff b a).mpr h)⟩
  haveI htr : IsTrans String (fun a b => strLe a b = true) :=
    ⟨fun a b c hab hbc =>
      (strLe_iff a c).mpr (le_trans ((strLe_iff a b).mp hab) ((strLe_iff b c).mp hbc))⟩
  have h := List.sorted_insertionSort (fun a b => strLe a b = true)
    (I.map ClerkUser.id ++ D.map DbUserRow.clerk_user_id).dedup
  exact h.imp (fun hab => (strLe_iff _ _).mp hab)

theorem all_ids_sorted_lt (I : List ClerkUser) (D : List DbUserRow) :
    List.Sorted (· < ·) (all_ids I D) :=
  (all_ids_sorted I D).lt_of_le (all_ids_nodup I D)

/-! ### Characterizations of the two lookups -/

theorem clerk_by_id_get_eq_some {I : List ClerkUser} {uid : String} {u : ClerkUser}
    (h : clerk_by_id_get I uid = some u) : u ∈ I ∧ u.id = uid := by
  unfold clerk_by_id_get at h
  refine ⟨List.mem_reverse.mp (List.mem_of_find?_eq_some h), ?_⟩
  simpa using List.find?_some h

theorem clerk_by_id_get_eq_none {I : List ClerkUser} {uid : String} :
    clerk_by_id_get I uid = none ↔ ∀ u ∈ I, u.id ≠ uid := by
  unfold clerk_by_id_get
  simp [List.find?_eq_none, List.mem_reverse]

theorem clerk_by_id_get_isSome {I : List ClerkUser} {uid : String} :
    (clerk_by_id_get I uid).isSome = true ↔ ∃ u ∈ I, u.id = uid := by
  unfold clerk_by_id_get
  simp [List.find?_isSome, List.mem_reverse]

theorem db_find_eq_some {D : List DbUserRow} {uid : String} {r : DbUserRow}
    (h : db_find D uid = some r) : r ∈ D ∧ r.clerk_user_id = uid := by
  unfold db_find at h
  refine ⟨List.mem_of_find?_eq_some h, ?_⟩
  simpa using List.find?_some h

theorem db_find_eq_none {D : List DbUserRow} {uid : String} :
    db_find D uid = none ↔ ∀ r ∈ D, r.clerk_user_id ≠ uid := by
  unfold db_find
  simp [List.find?_eq_none]

theorem db_find_isSome {D : List DbUserRow} {uid : String} :
    (db_find D uid).isSome = true ↔ ∃ r ∈ D, r.clerk_user_id = uid := by
  unfold db_find
  simp [List.find?_isSome]

/-- With distinct clerk ids, the dict lookup returns the unique matching
user, so it is stable under permutation of the input list. -/
theorem clerk_by_id_get_perm {I J : List ClerkUser}
    (hn : (I.map ClerkUser.id).Nodup) (hp : I.Perm J) (uid : String) :
    clerk_by_id_get I uid = clerk_by_id_get J uid := by
  cases h : clerk_by_id_get I uid with
  | none =>
    rw [clerk_by_id_get_eq_none] at h
    exact (clerk_by_id_get_eq_none.mpr fun u hu => h u (hp.mem_iff.mpr hu)).symm
  | some u =>
    obtain ⟨hu, hid⟩ := clerk_by_id_get_eq_some h
    cases h2 : clerk_by_id_get J uid with
    | none =>
      rw [clerk_by_id_get_eq_none] at h2
      exact absurd hid (h2 u (hp.mem_iff.mp hu))
    | some v =>
      obtain ⟨hv, hvid⟩ := clerk_by_id_get_eq_some h2
      have hvI : v ∈ I := hp.mem_iff.mpr hv
      have : u = v := List.inj_on_of_nodup_map hn hu hvI (by rw [hvid, hid])
      rw [this]

/-- With distinct database ids, the row search returns the unique matching
row, so it is stable under permutation of the input list. -/
theorem db_find_perm {D E : List DbUserRow}
    (hn : (D.map DbUserRow.clerk_user_id).Nodup) (hp : D.Perm E) (uid : String) :
    db_find D uid = db_find E uid := by
  cases h : db_find D uid with
  | none =>
    rw [db_find_eq_none] at h
    exact (db_find_eq_none.mpr fun r hr => h r (hp.mem_iff.mpr hr)).symm
  | some r =>
    obtain ⟨hr, hid⟩ := db_find_eq_some h
    cases h2 : db_find E uid with
    | none =>
      rw [db_find_eq_none] at h2
      exact absurd hid (h2 r (hp.mem_iff.mp hr))
    | some s =>
      obtain ⟨hs, hsid⟩ := db_find_eq_some h2
      have hsD : s ∈ D := hp.mem_iff.mpr hs
      have : r = s := List.inj_on_of_nodup_map hn hr hsD (by rw [hsid, hid])
      rw [this]

/-- With distinct database ids, the row search finds any given matching row. -/
theorem db_find_unique {D : List DbUserRow} {uid : String} {r : DbUserRow}
    (hn : (D.map DbUserRow.clerk_user_id).Nodup) (hr : r ∈ D)
    (hid : r.clerk_user_id = uid) : db_find D uid = some r := by
  cases h : db_find D uid with
  | none =>
    rw [db_find_eq_none] at h
    exact absurd hid (h r hr)
  | some s =>
    obtain ⟨hs, hsid⟩ := db_find_eq_some h
    have : s = r := List.inj_on_of_nodup_map hn hs hr (by rw [hsid, hid])
    rw [this]

/-! ### Further helper lemmas about the report -/

theorem report_rows_map_id (I : List ClerkUser) (D : List DbUserRow) :
    (report_rows I D).map ReportRow.id = all_ids I D := by
  rw [report_rows, List.map_map]
  exact List.map_id _

theorem mem_map_clerk_id {I : List ClerkUser} {uid : String} :
    uid ∈ I.map ClerkUser.id ↔ ∃ u ∈ I, u.id = uid := by
  simp [List.mem_map]

theorem mem_map_db_id {D : List DbUserRow} {uid : String} :
    uid ∈ D.map DbUserRow.clerk_user_id ↔ ∃ r ∈ D, r.clerk_user_id = uid := by
  simp [List.mem_map]

theorem clerk_by_id_get_none_of_not_mem {I : List ClerkUser} {uid : String}
    (h : uid ∉ I.map ClerkUser.id) : clerk_by_id_get I uid = none := by
  rw [clerk_by_id_get_eq_none]
  intro u hu hid
  exact h (mem_map_clerk_id.mpr ⟨u, hu, hid⟩)

theorem db_find_none_of_not_mem {D : List DbUserRow} {uid : String}
    (h : uid ∉ D.map DbUserRow.clerk_user_id) : db_find D uid = none := by
  rw [db_find_eq_none]
  intro r hr hid
  exact h (mem_map_db_id.mpr ⟨r, hr, hid⟩)

/-! ### Sample inputs for the witnesses -/

/-- One identity user with no database data. -/
def sampleI : List ClerkUser := [⟨"u1", "a@x.com", "2024-01-01 00:00:00"⟩]

/-- One database summary with no identity account. -/
def sampleD : List DbUserRow := [⟨"u2", 3, 4, 5, 6⟩]

/-! ### C1: classification correctness -/

/-- C1: for every row of the report, the status is `"ok"` iff the row's id
occurs among both the identity users and the database summaries, `"NO DB
DATA"` (the printed form of `no-db-data`) iff it occurs only among identity
users, and `"** ORPHANED DB DATA **"` (the printed form of
`orphaned-db-data`) iff it occurs only among database summaries. -/
theorem C1_classification_correct (I : List ClerkUser) (D : List DbUserRow)
    (row : ReportRow) (h : row ∈ report_rows I D) :
    (row.status = "ok" ↔
      row.id ∈ I.map ClerkUser.id ∧ row.id ∈ D.map DbUserRow.clerk_user_id) ∧
    (row.status = "NO DB DATA" ↔
      row.id ∈ I.map ClerkUser.id ∧ row.id ∉ D.map DbUserRow.clerk_user_id) ∧
    (row.status = "** ORPHANED DB DATA **" ↔
      row.id ∉ I.map ClerkUser.id ∧ row.id ∈ D.map DbUserRow.clerk_user_id) := by
  rw [report_rows] at h
  obtain ⟨uid, huid, rfl⟩ := List.mem_map.mp h
  have hne1 : ("ok" : String) ≠ "NO DB DATA" := by decide
  have hne2 : ("ok" : String) ≠ "** ORPHANED DB DATA **" := by decide
  have hne3 : ("NO DB DATA" : String) ≠ "** ORPHANED DB DATA **" := by decide
  rcases hc : clerk_by_id_get I uid with _ | u <;> rcases hd : db_find D uid with _ | r
  · exfalso
    rcases mem_all_ids.mp huid with hmem | hmem
    · obtain ⟨u, hu, hid⟩ := mem_map_clerk_id.mp hmem
      exact clerk_by_id_get_eq_none.mp hc u hu hid
    · obtain ⟨r, hr, hid⟩ := mem_map_db_id.mp hmem
      exact db_find_eq_none.mp hd r hr hid
  · have hI : uid ∉ I.map ClerkUser.id := by
      intro hmem
      obtain ⟨u, hu, hid⟩ := mem_map_clerk_id.mp hmem
      exact clerk_by_id_get_eq_none.mp hc u hu hid
    have hD : uid ∈ D.map DbUserRow.clerk_user_id := by
      obtain ⟨hr, hid⟩ := db_find_eq_some hd
      exact mem_map_db_id.mpr ⟨r, hr, hid⟩
    simp [make_row, hc, hd, hI, hD, hne2, hne3, Ne.symm hne2, Ne.symm hne3]
  · have hI : uid ∈ I.map ClerkUser.id := by
      obtain ⟨hu, hid⟩ := clerk_by_id_get_eq_some hc
      exact mem_map_clerk_id.mpr ⟨u, hu, hid⟩
    have hD : uid ∉ D.map DbUserRow.clerk_user_id := by
      intro hmem
      obtain ⟨r, hr, hid⟩ := mem_map_db_id.mp hmem
      exact db_find_eq_none.mp hd r hr hid
    simp [make_row, hc, hd, hI, hD, hne1, hne3, Ne.symm hne1, Ne.symm hne3]
  · have hI : uid ∈ I.map ClerkUser.id := by
      obtain ⟨hu, hid⟩ := clerk_by_id_get_eq_some hc
      exact mem_map_clerk_id.mpr ⟨u, hu, hid⟩
    have hD : uid ∈ D.map DbUserRow.clerk_user_id := by
      obtain ⟨hr, hid⟩ := db_find_eq_some hd
      exact mem_map_db_id.mpr ⟨r, hr, hid⟩
    simp [make_row, hc, hd, hI, hD, hne1, hne2, Ne.symm hne1, Ne.symm hne2]

/-- Witness for C1 at a concrete identity-only id. -/
theorem C1_classification_correct_witness :
    make_row sampleI sampleD "u1" ∈ report_rows sampleI sampleD ∧
    (((make_row sampleI sampleD "u1").status = "ok" ↔
      (make_row sampleI sampleD "u1").id ∈ sampleI.map ClerkUser.id ∧
      (make_row sampleI sampleD "u1").id ∈ sampleD.map DbUserRow.clerk_user_id) ∧
    ((make_row sampleI sampleD "u1").status = "NO DB DATA" ↔
      (make_row sampleI sampleD "u1").id ∈ sampleI.map ClerkUser.id ∧
      (make_row sampleI sampleD "u1").id ∉ sampleD.map DbUserRow.clerk_user_id) ∧
    ((make_row sampleI sampleD "u1").status = "** ORPHANED DB DATA **" ↔
      (make_row sampleI sampleD "u1").id ∉ sampleI.map ClerkUser.id ∧
      (make_row sampleI sampleD "u1").id ∈ sampleD.map DbUserRow.clerk_user_id)) :=
  ⟨by decide, C1_classification_correct sampleI sampleD _ (by decide)⟩

/-! ### C2: union completeness -/

/-- C2: the report has exactly one row per id of the union of the two id
sets — the row ids are duplicate-free and an id occurs among them iff it
occurs among the identity users or the database summaries. -/
theorem C2_union_completeness (I : List ClerkUser) (D : List DbUserRow) :
    ((report_rows I D).map ReportRow.id).Nodup ∧
    ∀ uid : String,
      uid ∈ (report_rows I D).map ReportRow.id ↔
        (uid ∈ I.map ClerkUser.id ∨ uid ∈ D.map DbUserRow.clerk_user_id) := by
  rw [report_rows_map_id]
  exact ⟨all_ids_nodup I D, fun uid => mem_all_ids⟩

/-! ### C3: ordering and permutation invariance -/

/-- C3: report rows are emitted in strictly ascending lexicographic order of
the id, and the emitted row sequence is unchanged under any permutation of
either input list when ids are distinct. -/
theorem C3_ordering_determinism (I J : List ClerkUser) (D E : List DbUserRow)
    (hIJ : I.Perm J) (hDE : D.Perm E)
    (hnI : (I.map ClerkUser.id).Nodup)
    (hnD : (D.map DbUserRow.clerk_user_id).Nodup) :
    List.Pairwise (· < ·) ((report_rows I D).map ReportRow.id) ∧
    report_rows J E = report_rows I D := by
  constructor
  · rw [report_rows_map_id]
    exact all_ids_sorted_lt I D
  · have hids : all_ids J E = all_ids I D := by
      refine List.eq_of_perm_of_sorted ?_ (all_ids_sorted J E) (all_ids_sorted I D)
      exact (all_ids_perm J E).trans
        ((((hIJ.map ClerkUser.id).append (hDE.map DbUserRow.clerk_user_id)).symm.dedup).trans
          (all_ids_perm I D).symm)
    rw [report_rows, report_rows, hids]
    refine List.map_congr_left fun uid _ => ?_
    unfold make_row
    rw [← clerk_by_id_get_perm hnI hIJ uid, ← db_find_perm hnD hDE uid]

/-- Witness for C3 at concrete permuted inputs. -/
theorem C3_ordering_determinism_witness :
    List.Pairwise (· < ·)
      ((report_rows [⟨"u1", "a", "t"⟩, ⟨"u3", "b", "t"⟩] sampleD).map ReportRow.id) ∧
    report_rows [⟨"u3", "b", "t"⟩, ⟨"u1", "a", "t"⟩] sampleD =
      report_rows [⟨"u1", "a", "t"⟩, ⟨"u3", "b", "t"⟩] sampleD :=
  C3_ordering_determinism [⟨"u1", "a", "t"⟩, ⟨"u3", "b", "t"⟩]
    [⟨"u3", "b", "t"⟩, ⟨"u1", "a", "t"⟩] sampleD sampleD
    (by decide) (by decide) (by decide) (by decide)

/-! ### C4: count fidelity -/

/-- C4: a database-only row displays exactly the four counts of its source
summary and a blank email; an identity-only row displays four zero counts. -/
theorem C4_count_fidelity (I : List ClerkUser) (D : List DbUserRow)
    (row : ReportRow) (r : DbUserRow) (h : row ∈ report_rows I D) :
    (r ∈ D → r.clerk_user_id = row.id → row.id ∉ I.map ClerkUser.id →
      (D.map DbUserRow.clerk_user_id).Nodup →
      row.email = "" ∧ row.trips = r.trip_count ∧ row.items = r.master_item_count ∧
      row.cats = r.category_count ∧ row.tmpls = r.bag_template_count) ∧
    (row.id ∉ D.map DbUserRow.clerk_user_id →
      row.trips = 0 ∧ row.items = 0 ∧ row.cats = 0 ∧ row.tmpls = 0) := by
  rw [report_rows] at h
  obtain ⟨uid, huid, rfl⟩ := List.mem_map.mp h
  constructor
  · intro hr hrid hnotI hnD
    have hc : clerk_by_id_get I uid = none := clerk_by_id_get_none_of_not_mem hnotI
    have hd : db_find D uid = some r := db_find_unique hnD hr hrid
    simp [make_row, hc, hd]
  · intro hnotD
    have hd : db_find D uid = none := db_find_none_of_not_mem hnotD
    simp [make_row, hd]

/-- Witness for C4: the database-only row of the sample inputs shows the
summary's counts and a blank email; the identity-only row shows zeros. -/
theorem C4_count_fidelity_witness :
    ((make_row sampleI sampleD "u2").email = "" ∧
     (make_row sampleI sampleD "u2").trips = 3 ∧
     (make_row sampleI sampleD "u2").items = 4 ∧
     (make_row sampleI sampleD "u2").cats = 5 ∧
     (make_row sampleI sampleD "u2").tmpls = 6) ∧
    ((make_row sampleI sampleD "u1").trips = 0 ∧
     (make_row sampleI sampleD "u1").items = 0 ∧
     (make_row sampleI sampleD "u1").cats = 0 ∧
     (make_row sampleI sampleD "u1").tmpls = 0) :=
  ⟨(C4_count_fidelity sampleI sampleD (make_row sampleI sampleD "u2")
      ⟨"u2", 3, 4, 5, 6⟩ (by decide)).1
      (by decide) (by decide) (by decide) (by decide),
   (C4_count_fidelity sampleI sampleD (make_row sampleI sampleD "u1")
      ⟨"u2", 3, 4, 5, 6⟩ (by decide)).2 (by decide)⟩

/-! ### C8: determinism of the report stage -/

/-- C8: the report stage is a pure function of the two fetched snapshots —
identical snapshots produce identical printed output, line for line. -/
theorem C8_report_deterministic (I J : List ClerkUser) (D E : List DbUserRow)
    (hI : I = J) (hD : D = E) : report_output I D = report_output J E := by
  rw [hI, hD]

/-- Witness for C8 at the sample snapshots. -/
theorem C8_report_deterministic_witness :
    report_output sampleI sampleD = report_output sampleI sampleD :=
  C8_report_deterministic sampleI sampleI sampleD sampleD rfl rfl

/-! ### C9: the summary sections and their asymmetric none-found messaging -/

theorem mem_orphaned_db {I : List ClerkUser} {D : List DbUserRow} {uid : String} :
    uid ∈ orphaned_db I D ↔ uid ∈ all_ids I D ∧ clerk_by_id_get I uid = none := by
  simp [orphaned_db, List.mem_filter, Option.isNone_iff_eq_none]

theorem mem_unused_clerk {I : List ClerkUser} {D : List DbUserRow} {uid : String} :
    uid ∈ unused_clerk I D ↔
      uid ∈ all_ids I D ∧ (clerk_by_id_get I uid).isSome = true ∧
        db_find D uid = none := by
  simp [unused_clerk, List.mem_filter, Option.isNone_iff_eq_none, and_assoc]

/-- Every orphaned id has a database row, so the `next(...)` in the orphan
listing never raises. -/
theorem orphaned_db_has_row {I : List ClerkUser} {D : List DbUserRow} {uid : String}
    (h : uid ∈ orphaned_db I D) : ∃ r, db_find D uid = some r := by
  obtain ⟨huid, hc⟩ := mem_orphaned_db.mp h
  have hnotI : uid ∉ I.map ClerkUser.id := by
    intro hm
    obtain ⟨u, hu, hid⟩ := mem_map_clerk_id.mp hm
    exact clerk_by_id_get_eq_none.mp hc u hu hid
  have hD : uid ∈ D.map DbUserRow.clerk_user_id :=
    (mem_all_ids.mp huid).resolve_left hnotI
  obtain ⟨r, hr, hid⟩ := mem_map_db_id.mp hD
  exact Option.isSome_iff_exists.mp (db_find_isSome.mpr ⟨r, hr, hid⟩)

/-- C9: after the count lines, a non-empty orphan list is printed one line per
orphaned id with its trip and item counts, and no none-found line appears;
an empty orphan list prints the explicit none-found line; a non-empty unused
list is printed one line per id with its email; an empty unused list prints
nothing at all for that branch. -/
theorem C9_summary_asymmetry (I : List ClerkUser) (D : List DbUserRow) :
    (orphaned_db I D ≠ [] →
      orphan_section I D =
        ["", "Orphaned DB users (no Clerk account): " ++
          toString (orphaned_db I D).length] ++
        (orphaned_db I D).map (orphan_detail_line D) ∧
      ∀ uid ∈ orphaned_db I D, ∃ r ∈ D, r.clerk_user_id = uid ∧
        orphan_detail_line D uid =
          "  " ++ uid ++ "  (" ++ toString r.trip_count ++ " trips, " ++
          toString r.master_item_count ++ " items)") ∧
    (orphaned_db I D = [] →
      orphan_section I D =
        ["", "No orphaned DB data found -- all DB users have Clerk accounts."]) ∧
    (unused_clerk I D ≠ [] →
      unused_section I D =
        ["", "Clerk users with no DB data: " ++ toString (unused_clerk I D).length] ++
        (unused_clerk I D).map (unused_detail_line I) ∧
      ∀ uid ∈ unused_clerk I D, ∃ u ∈ I, u.id = uid ∧
        unused_detail_line I uid = "  " ++ uid ++ "  (" ++ u.email ++ ")") ∧
    (unused_clerk I D = [] → unused_section I D = []) ∧
    summary_lines I D =
      summary_base I D ++ orphan_section I D ++ unused_section I D := by
  refine ⟨?_, ?_, ?_, ?_, rfl⟩
  · intro hne
    constructor
    · simp [orphan_section, List.isEmpty_iff, hne]
    · intro uid hu
      obtain ⟨r, hd⟩ := orphaned_db_has_row hu
      obtain ⟨hr, hid⟩ := db_find_eq_some hd
      exact ⟨r, hr, hid, by simp [orphan_detail_line, hd]⟩
  · intro h
    simp [orphan_section, h]
  · intro hne
    constructor
    · simp [unused_section, List.isEmpty_iff, hne]
    · intro uid hu
      obtain ⟨_, hsome, _⟩ := mem_unused_clerk.mp hu
      obtain ⟨u, hc⟩ := Option.isSome_iff_exists.mp hsome
      obtain ⟨huI, hid⟩ := clerk_by_id_get_eq_some hc
      exact ⟨u, huI, hid, by simp [unused_detail_line, hc]⟩
  · intro h
    simp [unused_section, h]

/-- Witness for C9 at the sample snapshots: one orphaned id, one unused id. -/
theorem C9_summary_asymmetry_witness :
    orphan_section sampleI sampleD =
      ["", "Orphaned DB users (no Clerk account): 1", "  u2  (3 trips, 4 items)"] ∧
    unused_section sampleI sampleD =
      ["", "Clerk users with no DB data: 1", "  u1  (a@x.com)"] := by
  constructor
  · exact (((C9_summary_asymmetry sampleI sampleD).1 (by decide)).1).trans (by decide)
  · exact (((C9_summary_asymmetry sampleI sampleD).2.2.1 (by decide)).1).trans (by decide)

/-! ### C5: pagination termination -/

theorem fetch_pages_cons_full {α : Type} (page_size : Nat) (batch : List α)
    (rest : List (List α)) (h1 : batch ≠ []) (h2 : ¬ batch.length < page_size) :
    fetch_pages page_size (batch :: rest) =
      (batch ++ (fetch_pages page_size rest).1, (fetch_pages page_size rest).2 + 1) := by
  simp only [fetch_pages]
  rw [if_neg (by simpa [List.isEmpty_iff] using h1), if_neg h2]

theorem fetch_pages_cons_short {α : Type} (page_size : Nat) (batch : List α)
    (rest : List (List α)) (h1 : batch ≠ []) (h2 : batch.length < page_size) :
    fetch_pages page_size (batch :: rest) = (batch, 1) := by
  simp only [fetch_pages]
  rw [if_neg (by simpa [List.isEmpty_iff] using h1), if_pos h2]

theorem fetch_pages_cons_empty {α : Type} (page_size : Nat) (rest : List (List α)) :
    fetch_pages page_size ([] :: rest) = ([], 1) := by
  simp only [fetch_pages]
  rw [if_pos (by simp)]

/-- C5: the pagination loop requests another page exactly after a full
non-empty batch, stops on a short or empty batch, and concatenates the
batches in order: page sizes [100, 100, 37] give 3 requests and 237 users,
page sizes [100, 0] give 2 requests and 100 users. -/
theorem C5_pagination_termination {α : Type} (a b c d e : List α)
    (ha : a.length = 100) (hb : b.length = 100) (hc : c.length = 37)
    (hd : d.length = 100) (he : e.length = 0) :
    (fetch_pages 100 [a, b, c] = (a ++ b ++ c, 3) ∧ (a ++ b ++ c).length = 237) ∧
    (fetch_pages 100 [d, e] = (d, 2) ∧ d.length = 100) ∧
    (∀ (batch : List α) (rest : List (List α)), batch ≠ [] → ¬ batch.length < 100 →
      fetch_pages 100 (batch :: rest) =
        (batch ++ (fetch_pages 100 rest).1, (fetch_pages 100 rest).2 + 1)) ∧
    (∀ (batch : List α) (rest : List (List α)), batch ≠ [] → batch.length < 100 →
      fetch_pages 100 (batch :: rest) = (batch, 1)) ∧
    (∀ rest : List (List α), fetch_pages 100 ([] :: rest) = ([], 1)) := by
  have ha0 : a ≠ [] := fun h => by simp [h] at ha
  have hb0 : b ≠ [] := fun h => by simp [h] at hb
  have hc0 : c ≠ [] := fun h => by simp [h] at hc
  have hd0 : d ≠ [] := fun h => by simp [h] at hd
  have he0 : e = [] := List.length_eq_zero.mp he
  refine ⟨⟨?_, ?_⟩, ⟨?_, hd⟩, ?_, ?_, ?_⟩
  · rw [fetch_pages_cons_full 100 a [b, c] ha0 (by simp [ha]),
      fetch_pages_cons_full 100 b [c] hb0 (by simp [hb]),
      fetch_pages_cons_short 100 c [] hc0 (by rw [hc]; decide)]
    simp [List.append_assoc]
  · simp [ha, hb, hc]
  · rw [he0, fetch_pages_cons_full 100 d [[]] hd0 (by simp [hd]),
      fetch_pages_cons_empty]
    simp
  · exact fun batch rest => fetch_pages_cons_full 100 batch rest
  · exact fun batch rest => fetch_pages_cons_short 100 batch rest
  · exact fetch_pages_cons_empty 100

/-- Witness for C5 on concrete pages of the stated sizes. -/
theorem C5_pagination_termination_witness :
    (fetch_pages 100 [List.replicate 100 (0 : Nat), List.replicate 100 0,
        List.replicate 37 0] =
      (List.replicate 100 0 ++ List.replicate 100 0 ++ List.replicate 37 0, 3) ∧
     (List.replicate 100 (0 : Nat) ++ List.replicate 100 0 ++
        List.replicate 37 0).length = 237) ∧
    (fetch_pages 100 [List.replicate 100 (0 : Nat), []] = (List.replicate 100 0, 2) ∧
     (List.replicate 100 (0 : Nat)).length = 100) :=
  ⟨(C5_pagination_termination (List.replicate 100 0) (List.replicate 100 0)
      (List.replicate 37 0) (List.replicate 100 0) []
      (by simp) (by simp) (by simp) (by simp) (by simp)).1,
   (C5_pagination_termination (List.replicate 100 0) (List.replicate 100 0)
      (List.replicate 37 0) (List.replicate 100 0) []
      (by simp) (by simp) (by simp) (by simp) (by simp)).2.1⟩

/-! ### C6: shape handling of the database-proxy output -/

/-- C6 counterexample: on the successfully parsed JSON `[1]` — a non-empty
list whose first element is not an object — `query_d1` does NOT return an
empty sequence; `data[0].get(...)` raises an uncaught `AttributeError`. -/
theorem C6_shape_mismatch_counterexample :
    parse_d1_output (Json.arr [Json.num 1]) ≠ Except.ok (Json.arr []) ∧
    parse_d1_output (Json.arr [Json.num 1]) = Except.error "AttributeError" := by
  constructor
  · simp [parse_d1_output]
  · rfl

/-- C6 amended: a parsed output that is not a non-empty list, or whose first
element is an object without a `results` field, yields an empty sequence; but
a non-empty list whose first element is not an object raises an uncaught
`AttributeError` instead. -/
theorem C6_shape_mismatch_amended (data : Json) :
    ((∀ elems, data = Json.arr elems → elems = []) →
      parse_d1_output data = Except.ok (Json.arr [])) ∧
    (∀ fields rest, data = Json.arr (Json.obj fields :: rest) →
      fields.reverse.find? (fun p => p.1 == "results") = none →
      parse_d1_output data = Except.ok (Json.arr [])) ∧
    (∀ first rest, data = Json.arr (first :: rest) →
      (∀ fields, first ≠ Json.obj fields) →
      parse_d1_output data = Except.error "AttributeError") := by
  refine ⟨?_, ?_, ?_⟩
  · intro h
    cases data with
    | arr elems =>
      cases elems with
      | nil => rfl
      | cons first rest => exact absurd (h (first :: rest) rfl) (by simp)
    | null => rfl
    | bool b => rfl
    | num n => rfl
    | str s => rfl
    | obj fields => rfl
  · intro fields rest h hfind
    subst h
    simp [parse_d1_output, objGet, hfind]
  · intro first rest h hne
    subst h
    cases first with
    | obj fields => exact absurd rfl (hne fields)
    | null => rfl
    | bool b => rfl
    | num n => rfl
    | str s => rfl
    | arr elems => rfl

/-- Witness for the amended C6 on three concrete shapes: a non-list, a
one-object list without `results`, and the crashing non-object first
element. -/
theorem C6_shape_mismatch_amended_witness :
    parse_d1_output Json.null = Except.ok (Json.arr []) ∧
    parse_d1_output (Json.arr [Json.obj []]) = Except.ok (Json.arr []) ∧
    parse_d1_output (Json.arr [Json.str "x"]) = Except.error "AttributeError" :=
  ⟨(C6_shape_mismatch_amended Json.null).1 (fun elems h => absurd h (by simp)),
   (C6_shape_mismatch_amended (Json.arr [Json.obj []])).2.1 [] [] rfl rfl,
   (C6_shape_mismatch_amended (Json.arr [Json.str "x"])).2.2 (Json.str "x") [] rfl
     (fun fields => by simp)⟩

/-! ### List plumbing for the environment loader -/

theorem head?_dropWhile_not {α : Type} {p : α → Bool} :
    ∀ (l : List α) {c : α}, (l.dropWhile p).head? = some c → p c = false := by
  intro l
  induction l with
  | nil => intro c h; exact absurd h (by simp)
  | cons a l ih =>
    intro c h
    rw [List.dropWhile_cons] at h
    by_cases hpa : p a = true
    · rw [if_pos hpa] at h
      exact ih h
    · rw [if_neg hpa] at h
      have : a = c := by simpa using h
      subst this
      simpa using hpa

theorem dropWhile_eq_self_of_head {α : Type} {p : α → Bool} {l : List α} {c : α}
    (h : l.head? = some c) (hc : p c = false) : l.dropWhile p = l := by
  cases l with
  | nil => rfl
  | cons a l =>
    have : a = c := by simpa using h
    subst this
    simp [List.dropWhile_cons, hc]

theorem dropWhile_dropWhile {α : Type} (p : α → Bool) (l : List α) :
    (l.dropWhile p).dropWhile p = l.dropWhile p := by
  cases h : l.dropWhile p with
  | nil => rfl
  | cons a t =>
    have ha : p a = false := head?_dropWhile_not l (by rw [h]; rfl)
    simp [List.dropWhile_cons, ha]

theorem dropWhile_append_singleton {α : Type} {p : α → Bool} (v : List α) (c : α)
    (hc : p c = false) : (v ++ [c]).dropWhile p = v.dropWhile p ++ [c] := by
  rw [List.dropWhile_append]
  by_cases h : (v.dropWhile p).isEmpty = true
  · rw [if_pos h, List.isEmpty_iff.mp h]
    simp [List.dropWhile_cons, hc]
  · rw [if_neg h]

theorem trimRight_append_cons (x v : List Char) (c : Char)
    (hc : c.isWhitespace = false) : trimRight (x ++ c :: v) = x ++ c :: trimRight v := by
  unfold trimRight
  rw [show (x ++ c :: v).reverse = (v.reverse ++ [c]) ++ x.reverse by simp,
    List.dropWhile_append, dropWhile_append_singleton v.reverse c hc,
    if_neg (by simp)]
  simp

theorem trimRight_cons (v : List Char) (c : Char) (hc : c.isWhitespace = false) :
    trimRight (c :: v) = c :: trimRight v := by
  have h := trimRight_append_cons [] v c hc
  simpa using h

theorem pyStrip_cons_of_head {c : Char} (cs : List Char) (hc : c.isWhitespace = false) :
    pyStrip (c :: cs) = c :: trimRight cs := by
  unfold pyStrip
  rw [List.dropWhile_cons, if_neg (by simp [hc]), trimRight_cons cs c hc]

theorem mem_trimRight {x : Char} {l : List Char} (h : x ∈ trimRight l) : x ∈ l := by
  unfold trimRight at h
  rw [List.mem_reverse] at h
  have h2 := (List.dropWhile_sublist _).subset h
  exact List.mem_reverse.mp h2

theorem mem_pyStrip {x : Char} {l : List Char} (h : x ∈ pyStrip l) : x ∈ l := by
  unfold pyStrip at h
  exact (List.dropWhile_sublist _).subset (mem_trimRight h)

theorem trimRight_trimRight (l : List Char) : trimRight (trimRight l) = trimRight l := by
  unfold trimRight
  rw [List.reverse_reverse, dropWhile_dropWhile]

theorem trimRight_prefix (l : List Char) : trimRight l <+: l := by
  have h1 : l.reverse.dropWhile Char.isWhitespace <:+ l.reverse :=
    List.dropWhile_suffix _
  have h2 := List.reverse_prefix.mpr h1
  rwa [List.reverse_reverse] at h2

theorem dropWhile_trimRight_dropWhile (l : List Char) :
    (trimRight (l.dropWhile Char.isWhitespace)).dropWhile Char.isWhitespace =
      trimRight (l.dropWhile Char.isWhitespace) := by
  cases hT : trimRight (l.dropWhile Char.isWhitespace) with
  | nil => rfl
  | cons t ts =>
    obtain ⟨tail, htail⟩ := trimRight_prefix (l.dropWhile Char.isWhitespace)
    have hhead : (l.dropWhile Char.isWhitespace).head? = some t := by
      rw [← htail, hT]
      simp
    have ht : t.isWhitespace = false := head?_dropWhile_not l hhead
    rw [← hT]
    exact dropWhile_eq_self_of_head (by rw [hT]; rfl) ht

theorem pyStrip_idem (l : List Char) : pyStrip (pyStrip l) = pyStrip l := by
  show pyStrip (trimRight (l.dropWhile Char.isWhitespace)) = _
  unfold pyStrip
  rw [dropWhile_trimRight_dropWhile, trimRight_trimRight]

theorem partitionEq_append (k w : List Char) (h : '=' ∉ k) :
    partitionEq (k ++ '=' :: w) = (k, w) := by
  induction k with
  | nil => simp [partitionEq]
  | cons a k ih =>
    have ha : ¬ a = '=' := fun e => h (List.mem_cons.mpr (Or.inl e.symm))
    have hk : '=' ∉ k := fun hm => h (List.mem_cons.mpr (Or.inr hm))
    simp [partitionEq, ha, ih hk]

theorem partitionEq_no_eq (m : List Char) (h : '=' ∉ m) : partitionEq m = (m, []) := by
  induction m with
  | nil => rfl
  | cons a m ih =>
    have ha : ¬ a = '=' := fun e => h (List.mem_cons.mpr (Or.inl e.symm))
    have hm : '=' ∉ m := fun hx => h (List.mem_cons.mpr (Or.inr hx))
    simp [partitionEq, ha, ih hm]

/-- `stripQuotes` keeps an infix of its input: what it removes from either end
consists of quote characters only. -/
theorem stripQuotes_decomp (cs : List Char) :
    ∃ a b, cs = a ++ stripQuotes cs ++ b ∧
      (∀ x ∈ a, isQuoteChar x = true) ∧ (∀ x ∈ b, isQuoteChar x = true) := by
  refine ⟨cs.takeWhile isQuoteChar,
    ((cs.dropWhile isQuoteChar).reverse.takeWhile isQuoteChar).reverse, ?_, ?_, ?_⟩
  · conv_lhs => rw [← List.takeWhile_append_dropWhile isQuoteChar cs]
    rw [List.append_assoc]
    congr 1
    conv_lhs =>
      rw [← List.reverse_reverse (cs.dropWhile isQuoteChar),
        ← List.takeWhile_append_dropWhile isQuoteChar (cs.dropWhile isQuoteChar).reverse]
    rw [List.reverse_append]
    rfl
  · exact fun x hx => List.mem_takeWhile_imp hx
  · intro x hx
    rw [List.mem_reverse] at hx
    exact List.mem_takeWhile_imp hx

/-- A non-empty `stripQuotes` result starts with a non-quote character. -/
theorem stripQuotes_head {cs : List Char} {c : Char}
    (h : (stripQuotes cs).head? = some c) : isQuoteChar c = false := by
  have hk : stripQuotes cs ≠ [] := by
    intro he
    rw [he] at h
    exact absurd h (by simp)
  have hdec :
      cs.dropWhile isQuoteChar =
        stripQuotes cs ++
          ((cs.dropWhile isQuoteChar).reverse.takeWhile isQuoteChar).reverse := by
    conv_lhs =>
      rw [← List.reverse_reverse (cs.dropWhile isQuoteChar),
        ← List.takeWhile_append_dropWhile isQuoteChar (cs.dropWhile isQuoteChar).reverse]
    rw [List.reverse_append]
    rfl
  have hhead : (cs.dropWhile isQuoteChar).head? = some c := by
    rw [hdec, List.head?_append_of_ne_nil _ hk, h]
  exact head?_dropWhile_not cs hhead

/-- A non-empty `stripQuotes` result ends with a non-quote character. -/
theorem stripQuotes_getLast {cs : List Char} {c : Char}
    (h : (stripQuotes cs).getLast? = some c) : isQuoteChar c = false := by
  unfold stripQuotes at h
  rw [List.getLast?_reverse] at h
  exact head?_dropWhile_not _ h

/-! ### C7: the environment-loader line processing -/

/-- A well-formed `KEY=VALUE` line processes to the stripped key and the
whitespace- and quote-stripped value. -/
theorem process_line_split (c : Char) (cs v : List Char)
    (hc : c.isWhitespace = false) (hch : c ≠ '#')
    (heq : '=' ∉ c :: cs) (hv : trimRight v = v) :
    process_line ((c :: cs) ++ '=' :: v) =
      some (c :: trimRight cs, stripQuotes (pyStrip v)) := by
  have hline : pyStrip ((c :: cs) ++ '=' :: v) = (c :: cs) ++ '=' :: v := by
    unfold pyStrip
    rw [show (c :: cs) ++ '=' :: v = c :: (cs ++ '=' :: v) by simp,
      List.dropWhile_cons, if_neg (by simp [hc]),
      show c :: (cs ++ '=' :: v) = (c :: cs) ++ '=' :: v by simp,
      trimRight_append_cons (c :: cs) v '=' (by decide), hv]
  have hpart : partitionEq ((c :: cs) ++ '=' :: v) = (c :: cs, v) :=
    partitionEq_append _ _ heq
  simp only [process_line, hline, hpart]
  rw [if_neg (by simp), if_neg (by simp [hch])]
  rw [pyStrip_cons_of_head cs hc]

/-- C7 counterexample: for the line `A="x'` — a value whose surrounding
quotes do NOT form a matching pair — the loader strips both quote
characters, while the claim says the value is kept as-is. -/
theorem C7_quote_strip_counterexample :
    process_line ['A', '=', Char.ofNat 34, 'x', Char.ofNat 39] =
      some (['A'], ['x']) ∧
    process_line_spec ['A', '=', Char.ofNat 34, 'x', Char.ofNat 39] =
      some (['A'], [Char.ofNat 34, 'x', Char.ofNat 39]) ∧
    process_line ['A', '=', Char.ofNat 34, 'x', Char.ofNat 39] ≠
      process_line_spec ['A', '=', Char.ofNat 34, 'x', Char.ofNat 39] :=
  ⟨by decide, by decide, by decide⟩

/-- C7 amended: the loader splits each non-empty non-comment line on the
first `=`, trims surrounding whitespace from key and value, removes ALL
leading and trailing quote characters (single or double, in any mix — not
only one matching pair) from the value, sets the pair, and later duplicate
keys overwrite earlier ones. -/
theorem C7_env_loader_amended (c : Char) (cs v : List Char)
    (hc : c.isWhitespace = false) (hch : c ≠ '#')
    (heq : '=' ∉ c :: cs) (hv : trimRight v = v) :
    process_line ((c :: cs) ++ '=' :: v) =
      some (c :: trimRight cs, stripQuotes (pyStrip v)) ∧
    (∀ ch, (stripQuotes (pyStrip v)).head? = some ch → isQuoteChar ch = false) ∧
    (∀ ch, (stripQuotes (pyStrip v)).getLast? = some ch → isQuoteChar ch = false) ∧
    (∃ q1 q2, pyStrip v = q1 ++ stripQuotes (pyStrip v) ++ q2 ∧
      (∀ x ∈ q1, isQuoteChar x = true) ∧ (∀ x ∈ q2, isQuoteChar x = true)) ∧
    (∀ (env : List Char → Option (List Char)) (v2 : List Char), trimRight v2 = v2 →
      load_env_lines [(c :: cs) ++ '=' :: v, (c :: cs) ++ '=' :: v2] env
        (c :: trimRight cs) = some (stripQuotes (pyStrip v2))) := by
  refine ⟨process_line_split c cs v hc hch heq hv,
    fun ch h => stripQuotes_head h,
    fun ch h => stripQuotes_getLast h,
    stripQuotes_decomp (pyStrip v), ?_⟩
  intro env v2 hv2
  have h1 := process_line_split c cs v hc hch heq hv
  have h2 := process_line_split c cs v2 hc hch heq hv2
  simp only [List.cons_append] at h1 h2
  simp [load_env_lines, h1, h2]

/-- Witness for the amended C7: the line `K="x'` yields key `K` and value `x`
with both mismatched quotes stripped, and a second `K=y` line overwrites. -/
theorem C7_env_loader_amended_witness :
    process_line ('K' :: '=' :: Char.ofNat 34 :: 'x' :: [Char.ofNat 39]) =
      some (['K'], ['x']) ∧
    load_env_lines [('K' :: '=' :: Char.ofNat 34 :: 'x' :: [Char.ofNat 39]),
        ('K' :: '=' :: ['y'])] (fun _ => none) ['K'] = some ['y'] :=
  ⟨((C7_env_loader_amended 'K' [] (Char.ofNat 34 :: 'x' :: [Char.ofNat 39])
      (by decide) (by decide) (by decide) (by decide)).1).trans (by decide),
   (((C7_env_loader_amended 'K' [] (Char.ofNat 34 :: 'x' :: [Char.ofNat 39])
      (by decide) (by decide) (by decide) (by decide)).2.2.2.2
      (fun _ => none) ['y'] (by decide)).trans (by decide))⟩

/-! ### C10: a line without `=` sets the whole line as key, empty value -/

/-- C10: a non-empty non-comment line containing no `=` is not skipped — its
trimmed text becomes the key and the value is empty, and the pair is set in
the environment. -/
theorem C10_no_equals_line (l : List Char)
    (h1 : pyStrip l ≠ []) (h2 : (pyStrip l).head? ≠ some '#') (h3 : '=' ∉ l) :
    process_line l = some (pyStrip l, []) ∧
    ∀ env : List Char → Option (List Char),
      load_env_lines [l] env (pyStrip l) = some [] := by
  have hq : '=' ∉ pyStrip l := fun h => h3 (mem_pyStrip h)
  have hpart : partitionEq (pyStrip l) = (pyStrip l, []) := partitionEq_no_eq _ hq
  have hmain : process_line l = some (pyStrip l, []) := by
    simp only [process_line, hpart]
    rw [if_neg h1, if_neg h2, pyStrip_idem]
    rfl
  refine ⟨hmain, fun env => ?_⟩
  simp [load_env_lines, hmain]

/-- Witness for C10 on the line `" FOO "`. -/
theorem C10_no_equals_line_witness :
    process_line [' ', 'F', 'O', 'O', ' '] =
      some (pyStrip [' ', 'F', 'O', 'O', ' '], []) ∧
    load_env_lines [[' ', 'F', 'O', 'O', ' ']] (fun _ => none)
      (pyStrip [' ', 'F', 'O', 'O', ' ']) = some [] :=
  ⟨(C10_no_equals_line [' ', 'F', 'O', 'O', ' ']
      (by decide) (by decide) (by decide)).1,
   (C10_no_equals_line [' ', 'F', 'O', 'O', ' ']
      (by decide) (by decide) (by decide)).2 (fun _ => none)⟩

end AdminUserAudit
